import Mathlib

/-!
Verification development for the JavaScript ECS input pipeline
(BindingMap, KeyBuffer, ComboTracker, InputManager).

The JavaScript classes are shallowly embedded as Lean structures with
explicit state passing.  JS numbers that the code treats as exact
(sensitivities, deadzones, analog values) are modelled as rationals,
millisecond clocks as naturals, JS `Map` as an insertion-ordered
association list, and nullable / possibly-absent fields as `Option`.
Code paths that can raise a JS exception are modelled in `Except`;
the managers' try/catch blocks become total wrappers.
Debug-mode console logging is elided throughout (it has no effect on
the observable state), and the external event bus is modelled as a
list of emitted events carried in the state.
-/

namespace InputCore

attribute [local semireducible] Rat.mul Rat.inv Rat.add Rat.sub Rat.ofScientific

/-- JS truthiness-based defaulting for string options: `s || d`
(the empty string is falsy). -/
def jsOrStr : Option String → String → String
  | some s, d => if s = "" then d else s
  | none, d => d

/-- JS truthiness-based defaulting for numeric options: `x || d`
(`0` is falsy; NaN is not modelled). -/
def jsOrRat : Option ℚ → ℚ → ℚ
  | some x, d => if x = 0 then d else x
  | none, d => d

/-- JS truthiness-based defaulting for natural-number options: `x || d`. -/
def jsOrNat : Option Nat → Nat → Nat
  | some x, d => if x = 0 then d else x
  | none, d => d

/-- JS `a - b` where `a` may be `null` (coerced to 0). -/
def jsSubNat (a : Option Nat) (b : Nat) : Int :=
  (a.getD 0 : Int) - (b : Int)

/-- Insertion-ordered association list modelling a JS `Map`
(and JS plain objects used as dictionaries). -/
abbrev JsMap (K V : Type) : Type := List (K × V)

/-- `Map.get`: first entry with the key. -/
def jmGet {K V : Type} [DecidableEq K] : JsMap K V → K → Option V
  | [], _ => none
  | (k', v) :: rest, k => if k = k' then some v else jmGet rest k

/-- `Map.set`: replace in place if the key exists, else append
(JS `Map` keeps the original insertion position on overwrite). -/
def jmSet {K V : Type} [DecidableEq K] : JsMap K V → K → V → JsMap K V
  | [], k, v => [(k, v)]
  | (k', v') :: rest, k, v =>
    if k = k' then (k, v) :: rest else (k', v') :: jmSet rest k v

/-- `Map.has`. -/
def jmHas {K V : Type} [DecidableEq K] (m : JsMap K V) (k : K) : Bool :=
  (jmGet m k).isSome

/-- `Map.delete`: remove the entry with the key. -/
def jmDelete {K V : Type} [DecidableEq K] : JsMap K V → K → JsMap K V
  | [], _ => []
  | (k', v') :: rest, k =>
    if k = k' then rest else (k', v') :: jmDelete rest k

/-- JS default string comparison (code-unit order), on char lists. -/
def charListLe : List Char → List Char → Bool
  | [], _ => true
  | _ :: _, [] => false
  | a :: as, b :: bs =>
    if a.toNat < b.toNat then true
    else if b.toNat < a.toNat then false
    else charListLe as bs

/-- JS default string comparison used by `Array.prototype.sort`. -/
def strLe (a b : String) : Bool := charListLe a.data b.data

/-- Insert a string into a sorted list (helper for `sortStrs`). -/
def insertStr (a : String) : List String → List String
  | [] => [a]
  | b :: bs => if strLe a b then a :: b :: bs else b :: insertStr a bs

/-- `Array.prototype.sort()` on strings (default code-unit order). -/
def sortStrs : List String → List String
  | [] => []
  | a :: as => insertStr a (sortStrs as)

/-- A JS modifier object (`{ctrl: true, shift: false, ...}`) as an
insertion-ordered association list. -/
abbrev Modifiers : Type := JsMap String Bool

/-- `modifiers[m]` with `undefined` read as `false` (falsy). -/
def modGet (ms : Modifiers) (k : String) : Bool :=
  (jmGet ms k).getD false

/-- `modifiers[k] = b` (JS object assignment). -/
def modSet (ms : Modifiers) (k : String) (b : Bool) : Modifiers :=
  jmSet ms k b

/-- The keys of a modifier object whose value is `true`, sorted:
`Object.keys(modifiers).filter(key => modifiers[key]).sort()`. -/
def activeModifierKeys (ms : Modifiers) : List String :=
  sortStrs ((ms.filter (fun p => p.2)).map (fun p => p.1))

/-- The normalized input record produced by device adapters
(argument of `processRawInput` / `mapInputToActions`). -/
structure InputData where
  deviceType : String
  inputType : String
  key : String
  type : String
  value : Option ℚ := none
  modifiers : Modifiers := []
  timestamp : Option Nat := none
deriving DecidableEq

/-- `inputData.value || 0`. -/
def InputData.valueOrZero (i : InputData) : ℚ := i.value.getD 0

/-! ## BindingMap (src/src/input/BindingMap.js) -/

/-- Optional per-binding matching conditions (`binding.conditions`). -/
structure Conditions where
  minValue : Option ℚ := none
  maxValue : Option ℚ := none
  inputType : Option String := none
deriving DecidableEq

/-- A binding descriptor object as passed to `addBinding`
(all fields optional in JS). -/
structure BindingDesc where
  deviceType : Option String := none
  inputType : Option String := none
  key : Option String := none
  input : Option String := none
  modifiers : Option Modifiers := none
  conditions : Option Conditions := none
  sensitivity : Option ℚ := none
  deadzone : Option ℚ := none
deriving DecidableEq

/-- A binding argument: either a binding string or a descriptor object. -/
inductive Binding where
  | str (s : String)
  | desc (d : BindingDesc)
deriving DecidableEq

/-- A normalized binding configuration (output of `normalizeBinding`). -/
structure BindingConfig where
  deviceType : String
  inputType : String
  key : String
  modifiers : Modifiers
  conditions : Conditions
  sensitivity : ℚ
  deadzone : ℚ
deriving DecidableEq

/-- `{actionName, ...bindingConfig}` stored in the binding table. -/
structure ActionConfig extends BindingConfig where
  actionName : String
deriving DecidableEq

/-- The action object materialized by `createActionFromBinding`. -/
structure Action where
  name : String
  type : String
  value : ℚ
  timestamp : Option Nat
  deviceType : String
  originalInput : InputData
deriving DecidableEq

/-- Fold one token of a binding string: modifier tokens set a flag
(`cmd` aliases to `meta`), any other token becomes the main key. -/
def bindingToken (acc : Modifiers × String) (tok : String) : Modifiers × String :=
  let normalizedKey := tok.trim.toLower
  if normalizedKey ∈ ["ctrl", "control", "shift", "alt", "meta", "cmd"] then
    (modSet acc.1 (if normalizedKey = "cmd" then "meta" else normalizedKey) true, acc.2)
  else
    (acc.1, normalizedKey)

/-- `BindingMap.parseBindingString` (e.g. "ctrl+shift+a", "gamepad:button_a"). -/
def parseBindingString (s : String) : BindingConfig :=
  let (deviceType, inputPart) :=
    match s.splitOn ":" with
    | [d, p] => (d, p)
    | _ => ("keyboard", s)
  let (modifiers, mainKey) := (inputPart.splitOn "+").foldl bindingToken ([], "")
  { deviceType := deviceType
    inputType := if deviceType = "keyboard" then "key" else "button"
    key := mainKey
    modifiers := modifiers
    conditions := {}
    sensitivity := 1
    deadzone := 1/10 }

/-- `BindingMap.normalizeBinding`: defaulting uses JS `||`, so falsy
explicit values (0, empty string) also fall back to the default. -/
def normalizeBinding : Binding → BindingConfig
  | .str s => parseBindingString s
  | .desc b =>
    { deviceType := jsOrStr b.deviceType "keyboard"
      inputType := jsOrStr b.inputType "key"
      key := jsOrStr b.key (jsOrStr b.input "undefined")
      modifiers := b.modifiers.getD []
      conditions := b.conditions.getD {}
      sensitivity := jsOrRat b.sensitivity 1
      deadzone := jsOrRat b.deadzone (1/10) }

/-- `BindingMap.generateBindingKey`. -/
def generateBindingKey (cfg : BindingConfig) : String :=
  let base := [cfg.deviceType, cfg.inputType, cfg.key]
  let modifierKeys := activeModifierKeys cfg.modifiers
  String.intercalate ":"
    (if modifierKeys ≠ [] then base ++ [String.intercalate "+" modifierKeys] else base)

/-- `BindingMap.generateInputKeys`: the base key, plus a variant with
the sorted active modifiers when any are present. -/
def generateInputKeys (i : InputData) : List String :=
  let base := i.deviceType ++ ":" ++ i.inputType ++ ":" ++ i.key
  let modifierKeys := activeModifierKeys i.modifiers
  if modifierKeys ≠ [] then
    [base, base ++ ":" ++ String.intercalate "+" modifierKeys]
  else
    [base]

/-- `BindingMap.checkConditions`. -/
def checkConditions (i : InputData) (c : Conditions) : Bool :=
  (match c.minValue with
   | some m => decide (¬ |i.valueOrZero| < m)
   | none => true) &&
  (match c.maxValue with
   | some m => decide (¬ |i.valueOrZero| > m)
   | none => true) &&
  (match c.inputType with
   | some t => if t = "" then true else decide (i.type = t)
   | none => true)

/-- `BindingMap.matchesBinding`. -/
def matchesBinding (i : InputData) (a : ActionConfig) : Bool :=
  decide (i.deviceType = a.deviceType) &&
  decide (i.inputType = a.inputType) &&
  decide (i.key = a.key) &&
  (a.modifiers.all fun p => !p.2 || modGet i.modifiers p.1) &&
  checkConditions i a.conditions

/-- `BindingMap.createActionFromBinding`: multiply by sensitivity
(skipped when it equals 1.0), then zero the result if its magnitude is
below the deadzone. -/
def createActionFromBinding (i : InputData) (a : ActionConfig) : Action :=
  let v0 := i.valueOrZero
  let v1 := if a.sensitivity ≠ 1 then v0 * a.sensitivity else v0
  let v2 := if |v1| < a.deadzone then 0 else v1
  { name := a.actionName
    type := i.type
    value := v2
    timestamp := i.timestamp
    deviceType := i.deviceType
    originalInput := i }

/-- The two-level binding table: context → bindingKey → action configs. -/
abbrev BindingTable : Type := JsMap String (JsMap String (List ActionConfig))

/-- The `BindingMap` instance state. -/
structure BindingMap where
  bindings : BindingTable
  activeContext : String
  bindingCache : JsMap String (List Action)
  cacheVersion : Nat
deriving DecidableEq

/-- The `BindingMap` constructor. -/
def mkBindingMap : BindingMap :=
  { bindings := [("default", [])]
    activeContext := "default"
    bindingCache := []
    cacheVersion := 0 }

/-- `BindingMap.clearCache`. -/
def BindingMap.clearCache (bm : BindingMap) : BindingMap :=
  { bm with bindingCache := [], cacheVersion := bm.cacheVersion + 1 }

/-- `BindingMap.addBinding` (the `updateCache` flag defaults to true
at the JS call sites that matter here). -/
def BindingMap.addBinding (bm : BindingMap) (context actionName : String)
    (binding : Binding) (updateCache : Bool) : BindingMap :=
  let bindings :=
    if ¬ jmHas bm.bindings context then jmSet bm.bindings context []
    else bm.bindings
  let cfg := normalizeBinding binding
  let bindingKey := generateBindingKey cfg
  let contextMap := (jmGet bindings context).getD []
  let contextMap :=
    if ¬ jmHas contextMap bindingKey then jmSet contextMap bindingKey []
    else contextMap
  let actionConfig : ActionConfig := { cfg with actionName := actionName }
  let contextMap :=
    jmSet contextMap bindingKey ((jmGet contextMap bindingKey).getD [] ++ [actionConfig])
  let bm := { bm with bindings := jmSet bindings context contextMap }
  if updateCache then bm.clearCache else bm

/-- Remove the first action config with the given name
(`findIndex` + `splice(index, 1)`). -/
def removeFirstAction (name : String) : List ActionConfig → List ActionConfig
  | [] => []
  | a :: as => if a.actionName = name then as else a :: removeFirstAction name as

/-- `BindingMap.removeBinding`.  Note the early return when the context
has no map: in that case the cache is NOT cleared. -/
def BindingMap.removeBinding (bm : BindingMap) (context actionName : String)
    (binding : Option Binding) : BindingMap :=
  match jmGet bm.bindings context with
  | none => bm
  | some contextMap =>
    let contextMap :=
      match binding with
      | some b =>
        let bindingKey := generateBindingKey (normalizeBinding b)
        match jmGet contextMap bindingKey with
        | none => contextMap
        | some actions =>
          if actions.any (fun a => a.actionName = actionName) then
            let remaining := removeFirstAction actionName actions
            if remaining = [] then jmDelete contextMap bindingKey
            else jmSet contextMap bindingKey remaining
          else contextMap
      | none =>
        contextMap.filterMap (fun p =>
          let filtered := p.2.filter (fun a => a.actionName ≠ actionName)
          if filtered = [] then none else some (p.1, filtered))
    ({ bm with bindings := jmSet bm.bindings context contextMap }).clearCache

/-- A context's binding value in a config object: a single binding or an
array of bindings. -/
inductive BindingsVal where
  | one (b : Binding)
  | many (bs : List Binding)
deriving DecidableEq

/-- `Array.isArray(bindings) ? bindings : [bindings]`. -/
def BindingsVal.toList : BindingsVal → List Binding
  | .one b => [b]
  | .many bs => bs

/-- A bindings configuration object: context → action → binding(s). -/
abbrev BindingsConfig : Type := List (String × List (String × BindingsVal))

/-- `BindingMap.loadBindings`: clear everything, then re-add every
binding with `updateCache = false` (the cache was already cleared). -/
def BindingMap.loadBindings (bm : BindingMap) (config : BindingsConfig) : BindingMap :=
  let bm := { bm with bindings := [] }
  let bm := bm.clearCache
  config.foldl (fun bm ctxEntry =>
    ctxEntry.2.foldl (fun bm actEntry =>
      actEntry.2.toList.foldl (fun bm b =>
        bm.addBinding ctxEntry.1 actEntry.1 b false) bm) bm) bm

/-- `BindingMap.setActiveContext` (clears the cache only on an actual
context change). -/
def BindingMap.setActiveContext (bm : BindingMap) (context : String) : BindingMap :=
  if bm.activeContext ≠ context then
    ({ bm with activeContext := context }).clearCache
  else bm

/-- `BindingMap.generateCacheKey`: context, primary input key, input
type and current cache version. -/
def generateCacheKey (bm : BindingMap) (i : InputData) (context : String) : String :=
  context ++ ":" ++ (generateInputKeys i).headD "" ++ ":" ++ i.type ++ ":"
    ++ toString bm.cacheVersion

/-- The uncached part of `mapInputToActions`: walk the candidate input
keys, re-verify each stored config with `matchesBinding`, materialize
actions in order. -/
def resolveFromMap (contextMap : JsMap String (List ActionConfig)) (i : InputData) :
    List Action :=
  (generateInputKeys i).foldl (fun acc inputKey =>
    match jmGet contextMap inputKey with
    | some bindingActions =>
      acc ++ (bindingActions.filter (matchesBinding i)).map (createActionFromBinding i)
    | none => acc) []

/-- `BindingMap.mapInputToActions`: serve from the cache when the key is
present, otherwise resolve against the binding table and cache the
result.  Returns the action list and the updated instance state. -/
def BindingMap.mapInputToActions (bm : BindingMap) (i : InputData)
    (context : Option String) : List Action × BindingMap :=
  let targetContext :=
    match context with
    | some c => if c = "" then bm.activeContext else c
    | none => bm.activeContext
  let cacheKey := generateCacheKey bm i targetContext
  match jmGet bm.bindingCache cacheKey with
  | some cached => (cached, bm)
  | none =>
    match jmGet bm.bindings targetContext with
    | none => ([], { bm with bindingCache := jmSet bm.bindingCache cacheKey [] })
    | some contextMap =>
      let actions := resolveFromMap contextMap i
      (actions, { bm with bindingCache := jmSet bm.bindingCache cacheKey actions })

/-- Resolution against the current binding table, bypassing the cache
(the reference semantics the cache is supposed to agree with). -/
def BindingMap.resolveUncached (bm : BindingMap) (i : InputData) (context : String) :
    List Action :=
  match jmGet bm.bindings context with
  | none => []
  | some contextMap => resolveFromMap contextMap i

/-! ## KeyBuffer (input history ring buffer) -/

/-- A JS number used as an array index: `none` models NaN (produced by
`x % 0`). -/
abbrev JsNum : Type := Option Int

/-- NaN-propagating addition. -/
def jsAdd (a : JsNum) (n : Int) : JsNum := a.map (· + n)

/-- JS `%` (truncated remainder; `x % 0` is NaN, NaN propagates). -/
def jsMod (a : JsNum) (b : Int) : JsNum :=
  match a with
  | none => none
  | some x => if b = 0 then none else some (Int.tmod x b)

/-- An entry of the history buffer: the input plus buffer metadata
(`{...inputData, bufferTimestamp, bufferIndex}`). -/
structure BufEntry where
  data : InputData
  bufferTimestamp : Nat
  bufferIndex : JsNum
deriving DecidableEq

/-- The `KeyBuffer` instance state.  The JS backing array is modelled as
a sparse index → entry store (JS arrays accept any numeric index,
including NaN, which becomes an ordinary property). -/
structure KeyBuffer where
  bufferSize : Int
  buffer : JsMap JsNum BufEntry
  writeIndex : JsNum
  count : Nat
  pressedKeys : List String
  keyOrder : List String
deriving DecidableEq

/-- The `KeyBuffer` constructor: negative sizes are normalized to -1
(documented as "unlimited"), 0 is documented as "no storage". -/
def KeyBuffer.init (size : Int) : KeyBuffer :=
  { bufferSize := if size < 0 then -1 else size
    buffer := []
    writeIndex := some 0
    count := 0
    pressedKeys := []
    keyOrder := [] }

/-- `KeyBuffer.addInput`: write at `writeIndex`, advance it modulo
`bufferSize`, and increment `count` only while `count < bufferSize`.
`now` is the `performance.now()` reading. -/
def KeyBuffer.addInput (kb : KeyBuffer) (i : InputData) (now : Nat) : KeyBuffer :=
  let bufferedInput : BufEntry :=
    { data := i, bufferTimestamp := now, bufferIndex := kb.writeIndex }
  { kb with
    buffer := jmSet kb.buffer kb.writeIndex bufferedInput
    writeIndex := jsMod (jsAdd kb.writeIndex 1) kb.bufferSize
    count := if (kb.count : Int) < kb.bufferSize then kb.count + 1 else kb.count }

/-- `!eventType` for an optional string (null, undefined and "" are
falsy). -/
def eventTypeFalsy : Option String → Bool
  | none => true
  | some s => s = ""

/-- `KeyBuffer.getRecentInputs`: newest-first scan of up to
`min count this.count` ring slots, skipping empty slots and applying
the optional event-type filter. -/
def KeyBuffer.getRecentInputs (kb : KeyBuffer) (countArg : Option Nat)
    (eventType : Option String) : List BufEntry :=
  let maxCount := min (countArg.getD kb.count) kb.count
  (List.range maxCount).foldl (fun results idx =>
    let index :=
      jsMod (jsAdd (jsAdd (jsAdd kb.writeIndex (-1)) (-(idx : Int))) kb.bufferSize)
        kb.bufferSize
    match jmGet kb.buffer index with
    | some input =>
      if eventTypeFalsy eventType || decide (some input.data.type = eventType) then
        results ++ [input]
      else results
    | none => results) []

/-- `KeyBuffer.clear` — the class body defines `clear` twice; under JS
semantics the LATER definition (which only resets the pressed-key set
and its insertion order) shadows the earlier one (which reset the
history ring).  This is the method actually invoked at runtime. -/
def KeyBuffer.clear (kb : KeyBuffer) : KeyBuffer :=
  { kb with pressedKeys := [], keyOrder := [] }

/-! ## ComboTracker — sequence-instance variant: registered combos
spawn per-combo sequence instances that advance step by step and
expire on timeout.  This class coexists in the repository with the
rolling-buffer variant below; it is NOT the module that the
InputManager's `./ComboTracker.js` reference resolves to. -/

/-- JS exceptions that the embedded code can raise. -/
inductive JsErr where
  | invalidParams
  | typeError
  | configError
  | ioError
deriving DecidableEq

/-- A normalized combo step. -/
structure ComboStep where
  key : String
  type : String
  deviceType : String
  modifiers : Modifiers
  optional : Bool
  minValue : Option ℚ := none
  maxValue : Option ℚ := none
  minInterval : Option ℚ := none
  maxInterval : Option ℚ := none
deriving DecidableEq

/-- A raw combo step argument: a step string or a step object. -/
inductive StepInput where
  | str (s : String)
  | obj (key : Option String) (input : Option String) (type : Option String)
      (deviceType : Option String) (modifiers : Option Modifiers)
      (optional : Option Bool) (minValue : Option ℚ) (maxValue : Option ℚ)
      (minInterval : Option ℚ) (maxInterval : Option ℚ)
deriving DecidableEq

/-- A raw combo configuration as passed to `registerCombo`. -/
structure ComboConfigInput where
  name : Option String := none
  steps : Option (List StepInput) := none
  pattern : Option String := none
  timeout : Option Nat := none
  allowMultiple : Option Bool := none
deriving DecidableEq

/-- A registered (normalized) combo. -/
structure ComboDef where
  id : String
  name : String
  steps : List ComboStep
  timeout : Nat
  allowMultiple : Bool
deriving DecidableEq

/-- An in-flight combo sequence instance. -/
structure SequenceState where
  id : Nat
  comboId : String
  steps : List ComboStep
  currentStep : Nat
  inputs : List InputData
  startTime : Nat
  lastInputTime : Nat
  timeout : Nat
  completed : Bool
  completionTime : Option Nat
deriving DecidableEq

/-- The completion record returned by `checkForCombo`. -/
structure ComboResult where
  comboId : String
  name : String
  sequence : SequenceState
  inputs : List InputData
  startTime : Nat
  completionTime : Option Nat
  totalTime : Int
deriving DecidableEq

/-- An entry of the combo completion history. -/
structure ComboHistEntry where
  comboId : String
  name : String
  timestamp : Option Nat
  totalTime : Int
deriving DecidableEq

/-- The sequence-instance `ComboTracker` state. -/
structure ComboTracker where
  defaultTimeout : Nat
  combos : JsMap String ComboDef
  activeSequences : JsMap Nat SequenceState
  nextSequenceId : Nat
  completedCombos : List ComboResult
  comboHistory : List ComboHistEntry
  maxHistorySize : Nat
deriving DecidableEq

/-- The sequence-instance `ComboTracker` constructor. -/
def ComboTracker.init (defaultTimeout : Nat) : ComboTracker :=
  { defaultTimeout := defaultTimeout
    combos := []
    activeSequences := []
    nextSequenceId := 1
    completedCombos := []
    comboHistory := []
    maxHistorySize := 100 }

/-- `ComboTracker.matchesComboStep`: key/type/deviceType are checked
only when the step specifies a truthy value; modifiers must match
exactly (required present, non-required absent); value bounds apply to
`inputData.value || 0`.  (The min/maxInterval timing block in the
source is an explicit no-op.) -/
def matchesComboStep (i : InputData) (step : ComboStep) : Bool :=
  (step.key = "" || decide (i.key = step.key)) &&
  (step.type = "" || decide (i.type = step.type)) &&
  (step.deviceType = "" || decide (i.deviceType = step.deviceType)) &&
  (step.modifiers.all fun p =>
    if p.2 then modGet i.modifiers p.1 else !modGet i.modifiers p.1) &&
  (match step.minValue with
   | some m => decide (¬ i.valueOrZero < m)
   | none => true) &&
  (match step.maxValue with
   | some m => decide (¬ i.valueOrZero > m)
   | none => true)

/-- Whitespace split as performed by `pattern.split(/\s+/)` (interior
runs collapse; a leading/trailing separator leaves an empty token;
only the space character is modelled). -/
def jsSplitWs (s : String) : List String :=
  if s = "" then [""]
  else
    (if s.startsWith " " then [""] else [])
      ++ ((s.splitOn " ").filter (fun t => t ≠ ""))
      ++ (if s.endsWith " " then [""] else [])

/-- `ComboTracker.parseStepString` (e.g. "ctrl+a", "gamepad:button_a"). -/
def parseStepString (s : String) : ComboStep :=
  let (deviceType, inputPart) :=
    match s.splitOn ":" with
    | [d, p] => (d, p)
    | _ => ("keyboard", s)
  let (modifiers, mainKey) := (inputPart.splitOn "+").foldl bindingToken ([], "")
  { key := mainKey
    type := "press"
    deviceType := deviceType
    modifiers := modifiers
    optional := false }

/-- `ComboTracker.parseComboPattern`. -/
def parseComboPattern (pattern : String) : List ComboStep :=
  (jsSplitWs pattern).map parseStepString

/-- `ComboTracker.normalizeComboStep`. -/
def normalizeComboStep : StepInput → ComboStep
  | .str s => parseStepString s
  | .obj key input type deviceType modifiers optional minValue maxValue minI maxI =>
    { key := jsOrStr key (jsOrStr input "")
      type := jsOrStr type "press"
      deviceType := jsOrStr deviceType "keyboard"
      modifiers := modifiers.getD []
      optional := optional.getD false
      minValue := minValue
      maxValue := maxValue
      minInterval := minI
      maxInterval := maxI }

/-- `ComboTracker.normalizeComboConfig`: steps from an explicit array,
else from a truthy pattern string, else a thrown configuration error. -/
def ComboTracker.normalizeComboConfig (ct : ComboTracker) (config : ComboConfigInput) :
    Except JsErr (String × List ComboStep × Nat × Bool) := do
  let steps ←
    match config.steps with
    | some arr => pure (arr.map normalizeComboStep)
    | none =>
      match config.pattern with
      | some p => if p = "" then throw .configError else pure (parseComboPattern p)
      | none => throw .configError
  pure (config.name.getD "", steps, jsOrNat config.timeout ct.defaultTimeout,
    config.allowMultiple.getD false)

/-- `ComboTracker.registerCombo`. -/
def ComboTracker.registerCombo (ct : ComboTracker) (comboId : String)
    (config : ComboConfigInput) : Except JsErr ComboTracker := do
  let (name, steps, timeout, allowMultiple) ← ct.normalizeComboConfig config
  pure { ct with
    combos := jmSet ct.combos comboId
      { id := comboId, name := name, steps := steps, timeout := timeout,
        allowMultiple := allowMultiple } }

/-- One active sequence under `updateActiveSequences`: expire on
timeout, advance on a matching next step (completing when all steps are
matched), drop on a non-optional mismatch, keep on an optional
mismatch.  Reading past the end of `steps` (a completed instance left
active) is the JS `undefined` property access and throws. -/
def stepActiveSequence (i : InputData) (now : Nat) (seq : SequenceState) :
    Except JsErr (Option SequenceState) := do
  if ((now : Int) - (seq.lastInputTime : Int)) > (seq.timeout : Int) then
    return none
  match seq.steps.get? seq.currentStep with
  | none => throw .typeError
  | some nextStep =>
    if matchesComboStep i nextStep then
      let seq := { seq with
        currentStep := seq.currentStep + 1
        lastInputTime := now
        inputs := seq.inputs ++ [i] }
      if seq.currentStep ≥ seq.steps.length then
        return some { seq with completed := true, completionTime := some now }
      else
        return some seq
    else if ¬ nextStep.optional then
      return none
    else
      return some seq

/-- Walk the active-sequence entries in order, keeping the stepped
survivors (the JS loop collects `sequencesToRemove` and deletes them
after the pass; the surviving entries, in order, are the same). -/
def updateSeqList (i : InputData) (now : Nat) :
    List (Nat × SequenceState) → Except JsErr (List (Nat × SequenceState))
  | [] => pure []
  | p :: rest => do
    let r ← stepActiveSequence i now p.2
    let rest' ← updateSeqList i now rest
    match r with
    | some seq => pure ((p.1, seq) :: rest')
    | none => pure rest'

/-- `ComboTracker.updateActiveSequences`. -/
def ComboTracker.updateActiveSequences (ct : ComboTracker) (i : InputData)
    (now : Nat) : Except JsErr ComboTracker := do
  let stepped ← updateSeqList i now ct.activeSequences
  pure { ct with activeSequences := stepped }

/-- The per-combo body of `startNewSequences`. -/
def startSeqStep (i : InputData) (now : Nat) (ct : ComboTracker)
    (p : String × ComboDef) : Except JsErr ComboTracker := do
  let combo := p.2
  let hasActiveSequence :=
    ct.activeSequences.any fun q => decide (q.2.comboId = p.1) && !q.2.completed
  if hasActiveSequence && !combo.allowMultiple then
    return ct
  match combo.steps.get? 0 with
  | none => throw .typeError
  | some firstStep =>
    if matchesComboStep i firstStep then
      let sequenceId := ct.nextSequenceId
      let seq : SequenceState :=
        { id := sequenceId
          comboId := p.1
          steps := combo.steps
          currentStep := 1
          inputs := [i]
          startTime := now
          lastInputTime := now
          timeout := jsOrNat (some combo.timeout) ct.defaultTimeout
          completed := false
          completionTime := none }
      let seq :=
        if combo.steps.length = 1 then
          { seq with completed := true, completionTime := some seq.lastInputTime }
        else seq
      return { ct with
        activeSequences := jmSet ct.activeSequences sequenceId seq
        nextSequenceId := sequenceId + 1 }
    else
      return ct

/-- The registration walk of `startNewSequences`. -/
def startSeqList (i : InputData) (now : Nat) :
    List (String × ComboDef) → ComboTracker → Except JsErr ComboTracker
  | [], ct => pure ct
  | p :: rest, ct => do
    let ct' ← startSeqStep i now ct p
    startSeqList i now rest ct'

/-- `ComboTracker.startNewSequences`: for every combo without a
disqualifying active instance, spawn an instance when the input matches
step 0 (single-step combos complete immediately).  An empty `steps`
array makes the step-0 read throw. -/
def ComboTracker.startNewSequences (ct : ComboTracker) (i : InputData)
    (now : Nat) : Except JsErr ComboTracker :=
  startSeqList i now ct.combos ct

/-- `ComboTracker.checkCompletedCombos`: return (and remove) the first
completed instance in iteration order; a dangling combo id is a JS
`undefined` property access. -/
def ComboTracker.checkCompletedCombos (ct : ComboTracker) :
    Except JsErr (Option ComboResult × ComboTracker) := do
  match ct.activeSequences.find? (fun p => p.2.completed) with
  | none => pure (none, ct)
  | some (sequenceId, seq) =>
    match jmGet ct.combos seq.comboId with
    | none => throw .typeError
    | some combo =>
      let result : ComboResult :=
        { comboId := seq.comboId
          name := if combo.name = "" then seq.comboId else combo.name
          sequence := seq
          inputs := seq.inputs
          startTime := seq.startTime
          completionTime := seq.completionTime
          totalTime := jsSubNat seq.completionTime seq.startTime }
      pure (some result, { ct with activeSequences := jmDelete ct.activeSequences sequenceId })

/-- `ComboTracker.recordComboCompletion` (history trimmed to
`maxHistorySize` FIFO). -/
def ComboTracker.recordComboCompletion (ct : ComboTracker) (combo : ComboResult) :
    ComboTracker :=
  let history := ct.comboHistory ++
    [{ comboId := combo.comboId, name := combo.name,
       timestamp := combo.completionTime, totalTime := combo.totalTime }]
  { ct with
    completedCombos := ct.completedCombos ++ [combo]
    comboHistory := if history.length > ct.maxHistorySize then history.drop 1 else history }

/-- `ComboTracker.checkForCombo`: update active sequences, start new
ones, then consume at most one completed combo. -/
def ComboTracker.checkForCombo (ct : ComboTracker) (i : InputData) (now : Nat) :
    Except JsErr (Option ComboResult × ComboTracker) := do
  let ct ← ct.updateActiveSequences i now
  let ct ← ct.startNewSequences i now
  let (completedCombo, ct) ← ct.checkCompletedCombos
  match completedCombo with
  | some c => pure (some c, ct.recordComboCompletion c)
  | none => pure (none, ct)

/-! ## ComboTracker — rolling-buffer variant
(src/src/input/ComboTracker.js): one shared buffer of recent keys,
exact-suffix matching against every registered sequence.  This is the
sibling module that the InputManager's `./ComboTracker.js` reference
resolves to; note it has NO `checkForCombo` method. -/

namespace Rolling

/-- A step passed to the rolling `registerCombo`: a key string or an
object carrying a `key`. -/
inductive RStep where
  | str (s : String)
  | obj (key : String)
deriving DecidableEq

/-- `typeof s === 'string' ? s : s.key`. -/
def RStep.toKey : RStep → String
  | .str s => s
  | .obj k => k

/-- A registered rolling combo: the extracted key sequence and whether a
completion callback was supplied (invoked inside try/catch; its effect,
or thrown exception, is unobservable in the model). -/
structure RCombo where
  sequence : List String
  hasCallback : Bool
deriving DecidableEq

/-- An `input:combo` event emitted by the rolling tracker. -/
structure REvent where
  name : String
  sequence : List String
  timestamp : Nat
deriving DecidableEq

/-- The rolling `ComboTracker` state.  `maxSequenceLength = none` models
`Infinity` (also the result of the falsy `|| Infinity` default); the
inactivity reset timer (`setTimeout` purging the buffer after
`defaultTimeout`) is a wall-clock side effect outside the per-input
step relation and is not modelled. -/
structure ComboTracker where
  defaultTimeout : Nat
  maxSequenceLength : Option Nat
  combos : JsMap String RCombo
  buffer : List String
  events : List REvent
deriving DecidableEq

/-- The rolling constructor: `options.timeout != null ? options.timeout
: 500` (so an explicit 0 is kept), `options.maxSequenceLength ||
Infinity` (so an explicit 0 becomes Infinity). -/
def ComboTracker.init (timeout : Option Nat) (maxSequenceLength : Option Nat) :
    ComboTracker :=
  { defaultTimeout := timeout.getD 500
    maxSequenceLength :=
      match maxSequenceLength with
      | some n => if n = 0 then none else some n
      | none => none
    combos := []
    buffer := []
    events := [] }

/-- Rolling `registerCombo`: keep the key sequence when given a
non-empty array, otherwise an empty sequence. -/
def ComboTracker.registerCombo (ct : ComboTracker) (comboId : String)
    (steps : List RStep) (hasCallback : Bool) : ComboTracker :=
  let seq := if steps ≠ [] then steps.map RStep.toKey else []
  { ct with combos := jmSet ct.combos comboId ⟨seq, hasCallback⟩ }

/-- `while (buffer.length > max) buffer.shift()` (no-op when the bound
is `Infinity`). -/
def trimBuffer (maxLen : Option Nat) (buffer : List String) : List String :=
  match maxLen with
  | none => buffer
  | some n => if buffer.length ≤ n then buffer else buffer.drop (buffer.length - n)

/-- Scan the registrations (already reversed to newest-first) and fire
the first whose non-empty sequence equals the buffer's suffix of the
same length. -/
def fireFirst (now : Nat) (buffer : List String) :
    List (String × RCombo) → Option REvent
  | [] => none
  | (comboId, c) :: rest =>
    let len := c.sequence.length
    if len ≠ 0 ∧ buffer.length ≥ len ∧ c.sequence = buffer.drop (buffer.length - len) then
      some { name := comboId, sequence := buffer.drop (buffer.length - len),
             timestamp := now }
    else fireFirst now buffer rest

/-- Rolling `processInput`: append the key, trim the buffer, then check
all combos in reverse insertion order and emit at most one
`input:combo` event (`break` after the first match). -/
def ComboTracker.processInput (ct : ComboTracker) (key : String) (now : Nat) :
    ComboTracker :=
  let buffer := trimBuffer ct.maxSequenceLength (ct.buffer ++ [key])
  match fireFirst now buffer ct.combos.reverse with
  | some ev => { ct with buffer := buffer, events := ct.events ++ [ev] }
  | none => { ct with buffer := buffer }

end Rolling

/-! ## InputManager (orchestrator) -/

/-- Per-action press/release/analog state. -/
structure ActionState where
  isPressed : Bool
  justPressed : Bool
  justReleased : Bool
  value : ℚ
  timestamp : Nat
deriving DecidableEq

/-- The fresh action state inserted on first use. -/
def freshActionState : ActionState :=
  { isPressed := false, justPressed := false, justReleased := false,
    value := 0, timestamp := 0 }

/-- The manager's per-frame bookkeeping. -/
structure FrameData where
  timestamp : Nat
  deltaTime : Nat
  frameNumber : Nat
deriving DecidableEq

/-- The manager configuration record. -/
structure ManagerConfig where
  enableDebugOverlay : Bool
  bufferSize : Int
  comboTimeout : Nat
  analogDeadzone : ℚ
  analogSensitivity : ℚ
deriving DecidableEq

/-- The constructor's default configuration. -/
def defaultManagerConfig : ManagerConfig :=
  { enableDebugOverlay := false, bufferSize := 32, comboTimeout := 500,
    analogDeadzone := 1/10, analogSensitivity := 1 }

/-- Events emitted through the external event bus (payloads reduced to
what the properties below observe). -/
inductive Event where
  | error (context : String)
  | combo (c : ComboResult)
  | actionPressed (action : String) (value : ℚ)
  | actionReleased (action : String)
  | actionHeld (action : String) (value : ℚ)
  | configLoaded
  | configSaved
  | contextChanged (context : String)
  | pauseChanged (paused : Bool)
  | initialized
  | disposed
deriving DecidableEq

/-- The `InputManager` state (device adapters and the debug manager are
external collaborators and are not modelled; the event manager is the
`events` list).  The `comboTracker` field holds the class constructed
by `initialize()` from the `./ComboTracker.js` import — the
rolling-buffer tracker. -/
structure InputManager where
  bindingMap : Option BindingMap
  keyBuffer : Option KeyBuffer
  comboTracker : Option Rolling.ComboTracker
  contextStack : List String
  currentContext : Option String
  actionStates : JsMap String ActionState
  frameData : FrameData
  config : ManagerConfig
  isInitialized : Bool
  isPaused : Bool
  events : List Event
deriving DecidableEq

/-- The `InputManager` constructor. -/
def mkInputManager : InputManager :=
  { bindingMap := none
    keyBuffer := none
    comboTracker := none
    contextStack := []
    currentContext := none
    actionStates := []
    frameData := { timestamp := 0, deltaTime := 0, frameNumber := 0 }
    config := defaultManagerConfig
    isInitialized := false
    isPaused := false
    events := [] }

/-- `InputManager.handleError`: report through `input:error` and
continue (console/debug logging elided). -/
def InputManager.handleError (m : InputManager) (context : String) : InputManager :=
  { m with events := m.events ++ [.error context] }

/-- `timestamp || frame` for the action-state timestamp (0 is falsy). -/
def jsTimestampOr (t : Option Nat) (frame : Nat) : Nat :=
  match t with
  | some v => if v = 0 then frame else v
  | none => frame

/-- `InputManager.processActionInput`: validate the action shape, then
update (creating on demand) the named action state; a malformed action
is caught and reported. -/
def InputManager.processActionInput (m : InputManager) (a : Action) : InputManager :=
  if ¬ (a.type = "press" ∨ a.type = "release" ∨ a.type = "analog") then
    m.handleError "processActionInput"
  else
    let state := (jmGet m.actionStates a.name).getD freshActionState
    let wasPressed := state.isPressed
    let state :=
      if a.type = "press" then
        { state with
          isPressed := true
          justPressed := !wasPressed
          justReleased := false
          value := if a.value = 0 then 1 else a.value }
      else if a.type = "release" then
        { state with
          isPressed := false
          justPressed := false
          justReleased := wasPressed
          value := 0 }
      else
        let value := a.value
        let isPressed := decide (|value| > m.config.analogDeadzone)
        { state with
          value := value
          isPressed := isPressed
          justPressed := isPressed && !wasPressed
          justReleased := !isPressed && wasPressed }
    let state := { state with timestamp := jsTimestampOr a.timestamp m.frameData.timestamp }
    { m with actionStates := jmSet m.actionStates a.name state }

/-- Clear the frame-specific flags of an action state (the reset
performed on every entry at the end of an `updateActionStates` pass). -/
def ActionState.resetJust (s : ActionState) : ActionState :=
  { s with justPressed := false, justReleased := false }

/-- The per-entry body of `updateActionStates`: emit events for the
flagged state, then clear the frame-specific flags in the map. -/
def updateActionStep (acc : InputManager) (p : String × ActionState) : InputManager :=
  let evs :=
    (if p.2.justPressed then [Event.actionPressed p.1 p.2.value] else [])
      ++ (if p.2.justReleased then [Event.actionReleased p.1] else [])
      ++ (if p.2.isPressed then [Event.actionHeld p.1 p.2.value] else [])
  { acc with
    events := acc.events ++ evs
    actionStates := jmSet acc.actionStates p.1
      { p.2 with justPressed := false, justReleased := false } }

/-- `InputManager.updateActionStates`: one pass over all action states,
emitting `action_pressed` / `action_released` / `action_held` and then
resetting the `just*` flags. -/
def InputManager.updateActionStates (m : InputManager) : InputManager :=
  m.actionStates.foldl updateActionStep m

/-- `InputManager.isActionPressed`. -/
def InputManager.isActionPressed (m : InputManager) (actionName : String) : Bool :=
  ((jmGet m.actionStates actionName).map (fun s => s.isPressed)).getD false

/-- `InputManager.isActionJustPressed`. -/
def InputManager.isActionJustPressed (m : InputManager) (actionName : String) : Bool :=
  ((jmGet m.actionStates actionName).map (fun s => s.justPressed)).getD false

/-- `InputManager.processComboInput`: validate and emit `input:combo`
(a model `ComboResult` is always a valid object, so the catch branch is
unreachable here).  As wired, `processRawInput` never reaches this
method — the combo check preceding it throws — so it is only callable
directly. -/
def InputManager.processComboInput (m : InputManager) (combo : ComboResult) :
    InputManager :=
  { m with events := m.events ++ [.combo combo] }

/-- Resolve an input through the binding map (when present) and feed
every matched action into the action state tracker. -/
def InputManager.feedBindings (m : InputManager) (i : InputData) : InputManager :=
  match m.bindingMap with
  | some bm =>
    let (actions, bm') := bm.mapInputToActions i m.currentContext
    actions.foldl InputManager.processActionInput { m with bindingMap := some bm' }
  | none => m

/-- A dynamically-typed JS argument to `processRawInput`. -/
inductive JsVal where
  | str (s : String)
  | obj (i : InputData)
  | num (n : ℚ)
  | undef
deriving DecidableEq

/-- The try-block of `processRawInput`: validate argument types, bail
out when uninitialized or paused, feed the history buffer, then
evaluate `this.comboTracker?.checkForCombo(inputData)`.  The imported
rolling tracker has no `checkForCombo` method, so with a tracker
present this call is a TypeError (the `?.` only guards a null
tracker); the combo-completion / binding-resolution code below it is
reachable only when the tracker is null, in which case the optional
chain yields `undefined` (falsy) and resolution proceeds.  A thrown
error carries the state as mutated so far (JS mutations persist across
a throw). -/
def InputManager.processRawInputBody (m : InputManager)
    (deviceType inputData : JsVal) (now : Nat) :
    Except (JsErr × InputManager) InputManager := do
  match deviceType, inputData with
  | .str _, .obj i =>
    if ¬ m.isInitialized ∨ m.isPaused then
      return m
    let m := { m with keyBuffer := m.keyBuffer.map (fun kb => KeyBuffer.addInput kb i now) }
    match m.comboTracker with
    | some _ => throw (.typeError, m)
    | none => return m.feedBindings i
  | _, _ => throw (.invalidParams, m)

/-- `InputManager.processRawInput`: the try/catch wrapper — any thrown
error is reported via `input:error` on the state the try-block had
built so far, and never propagates to the caller. -/
def InputManager.processRawInput (m : InputManager) (deviceType inputData : JsVal)
    (now : Nat) : InputManager :=
  match m.processRawInputBody deviceType inputData now with
  | .ok m' => m'
  | .error (_, m') => m'.handleError "processRawInput"

/-- A configuration object as produced by the persistence collaborator
(`settings` reduced to the keys of the typed configuration record;
unknown keys in the JS spread-merge have no modelled effect). -/
structure InputConfig where
  bindings : BindingsConfig := []
  settings : Option ManagerConfig := none
deriving DecidableEq

/-- `{...this.config, ...inputConfig.settings}`. -/
def mergeSettings (c : ManagerConfig) (s : Option ManagerConfig) : ManagerConfig :=
  s.getD c

/-- Apply a successfully loaded configuration and emit
`input:config_loaded`. -/
def InputManager.applyLoadedConfig (m : InputManager) (cfg : InputConfig) :
    InputManager :=
  { m with
    bindingMap := m.bindingMap.map (fun bm => bm.loadBindings cfg.bindings)
    config := mergeSettings m.config cfg.settings
    events := m.events ++ [.configLoaded] }

/-- The retry loop of `loadConfig`.  `fuel` is `maxRetries - attempt`
(the loop runs at most `maxRetries = 3` iterations); the external
persistence collaborator is modelled as a function from the attempt
number to its outcome (`none` models a falsy resolved config, on which
the manager silently returns). -/
def InputManager.loadConfigGo (provider : Nat → Except JsErr (Option InputConfig))
    (configArg : Option InputConfig) :
    Nat → Nat → InputManager → InputManager
  | 0, _, m => m
  | fuel + 1, attempt, m =>
    match (match configArg with
           | some c => Except.ok (some c)
           | none => provider attempt) with
    | .ok (some cfg) => m.applyLoadedConfig cfg
    | .ok none => m
    | .error _ =>
      let m := m.handleError "loadConfig"
      if attempt + 1 < 3 then
        InputManager.loadConfigGo provider configArg fuel (attempt + 1) m
      else
        { m with bindingMap := m.bindingMap.map (fun bm => bm.loadBindings []) }

/-- `InputManager.loadConfig`: up to 3 attempts; an error event per
failed attempt; an empty binding set applied after exhausting retries;
never throws to the caller. -/
def InputManager.loadConfig (m : InputManager) (configArg : Option InputConfig)
    (provider : Nat → Except JsErr (Option InputConfig)) : InputManager :=
  InputManager.loadConfigGo provider configArg 3 0 m

/-! ## Concrete scenario data used by the closed theorems below -/

/-- An analog binding descriptor with sensitivity 2 and deadzone 2. -/
def c4desc : BindingDesc := { key := some "z", sensitivity := some 2, deadzone := some 2 }

/-- A binding map with that single binding in the default context. -/
def c4bm : BindingMap := mkBindingMap.addBinding "default" "zoom" (.desc c4desc) true

/-- An analog input of magnitude 1 (below the configured deadzone 2). -/
def c4input : InputData :=
  { deviceType := "keyboard", inputType := "key", key := "z", type := "analog",
    value := some 1 }

/-- A plain key binding descriptor. -/
def c2desc : BindingDesc := { key := some "x", inputType := some "key" }

/-- A binding map binding key "x" to action "aim". -/
def c2bm : BindingMap := mkBindingMap.addBinding "default" "aim" (.desc c2desc) true

/-- An analog input on "x" of value 9/10. -/
def c2i1 : InputData :=
  { deviceType := "keyboard", inputType := "key", key := "x", type := "analog",
    value := some (9/10) }

/-- The same input shape with value 1/2 (same cache key as `c2i1`). -/
def c2i2 : InputData :=
  { deviceType := "keyboard", inputType := "key", key := "x", type := "analog",
    value := some (1/2) }

/-- The binding map state after resolving `c2i1` (its cache now holds
the result under a key that ignores the input's value). -/
def c2stale : BindingMap := (c2bm.mapInputToActions c2i1 none).2

/-- The state after a `removeBinding` whose context does not exist
(the early-return branch that skips the cache clear). -/
def c2afterRemove : BindingMap := c2stale.removeBinding "ghost" "aim" none

/-- Step descriptor for key "k1". -/
def c5step1 : StepInput := .obj (some "k1") none none none none none none none none none

/-- Step descriptor for key "k2". -/
def c5step2 : StepInput := .obj (some "k2") none none none none none none none none none

/-- A two-step combo configuration with a 1000 ms timeout. -/
def c5cfg : ComboConfigInput := { steps := some [c5step1, c5step2], timeout := some 1000 }

/-- The tracker with that combo registered. -/
def c5ct : ComboTracker :=
  match (ComboTracker.init 500).registerCombo "c" c5cfg with
  | .ok ct => ct
  | .error _ => ComboTracker.init 500

/-- The press of "k1". -/
def c5i1 : InputData :=
  { deviceType := "keyboard", inputType := "key", key := "k1", type := "press",
    value := some 1 }

/-- The press of "k2". -/
def c5i2 : InputData :=
  { deviceType := "keyboard", inputType := "key", key := "k2", type := "press",
    value := some 1 }

/-- A plain key press input. -/
def c7input : InputData :=
  { deviceType := "keyboard", inputType := "key", key := "a", type := "press",
    value := some 1 }

/-- A press action for "jump". -/
def c3action : Action :=
  { name := "jump", type := "press", value := 1, timestamp := some 5,
    deviceType := "keyboard", originalInput := c7input }

/-- An initialized manager wired as `initialize()` wires it: the
components constructed from the sibling imports, with the combo
tracker being the rolling variant (which has no `checkForCombo`). -/
def c1manager : InputManager :=
  { mkInputManager with
    bindingMap := some c2bm
    keyBuffer := some (KeyBuffer.init 32)
    comboTracker := some (Rolling.ComboTracker.init none none)
    isInitialized := true
    currentContext := some "default" }

deriving instance DecidableEq for Except

/-- Feed two inputs through the sequence-instance tracker and return
the combo completion (if any) reported for the second input. -/
def comboRunTwo (ct : ComboTracker) (i1 : InputData) (t1 : Nat) (i2 : InputData)
    (t2 : Nat) : Except JsErr (Option ComboResult) :=
  match ct.checkForCombo i1 t1 with
  | .ok (_, ct1) =>
    match ct1.checkForCombo i2 t2 with
    | .ok (r, _) => .ok r
    | .error e => .error e
  | .error e => .error e

/-- A rolling tracker with one two-key combo "c" registered. -/
def rollingReg (K1 K2 : String) : Rolling.ComboTracker :=
  (Rolling.ComboTracker.init (some 500) none).registerCombo "c" [.str K1, .str K2] false

/-- Feed a list of keys into the rolling tracker at one timestamp. -/
def rollingFeed (ct : Rolling.ComboTracker) (keys : List String) (now : Nat) :
    Rolling.ComboTracker :=
  keys.foldl (fun ct k => ct.processInput k now) ct

/-- A manager with only a binding map (for the loadConfig scenario). -/
def c9manager : InputManager :=
  { mkInputManager with bindingMap := some mkBindingMap, isInitialized := true }

/-- A loaded configuration used by the loadConfig success scenario. -/
def c9config : InputConfig :=
  { bindings := [("default", [("fire", .one (.str "f"))])] }

/-! ## General association-list lemmas -/

theorem jmGet_jmSet_self {K V : Type} [DecidableEq K] (m : JsMap K V) (k : K) (v : V) :
    jmGet (jmSet m k v) k = some v := by
  induction m with
  | nil => simp [jmGet, jmSet]
  | cons p rest ih =>
    by_cases h : k = p.1
    · simp [jmGet, jmSet, h]
    · simp [jmGet, jmSet, h, ih]

theorem jmGet_nil {K V : Type} [DecidableEq K] (k : K) :
    jmGet ([] : JsMap K V) k = none := rfl

/-! ## C10: falsy-field defaulting in normalizeBinding -/

/-- C10: `normalizeBinding` substitutes the default for any falsy field
value, not only for absent fields: a descriptor with an explicit
`sensitivity: 0` normalizes to sensitivity 1.0, an explicit
`deadzone: 0` normalizes to deadzone 0.1, and consequently no
descriptor can configure a normalized deadzone of exactly 0. -/
theorem normalizeBinding_falsy_defaults (d : BindingDesc) :
    (normalizeBinding (.desc { d with sensitivity := some 0 })).sensitivity = 1
    ∧ (normalizeBinding (.desc { d with deadzone := some 0 })).deadzone = 1/10
    ∧ (normalizeBinding (.desc d)).deadzone ≠ 0 := by
  refine ⟨by simp [normalizeBinding, jsOrRat], by simp [normalizeBinding, jsOrRat], ?_⟩
  simp only [normalizeBinding]
  match h : d.deadzone with
  | none => simp [jsOrRat]
  | some x =>
    by_cases hx : x = 0
    · simp [jsOrRat, hx]
    · simp [jsOrRat, hx]

/-! ## C4: deadzone zeroing -/

/-- C4 (counterexample): the claim "`|input.value| < deadzone` implies
the materialized action value is exactly 0" fails: with sensitivity 2
and deadzone 2, the input value 1 satisfies `|value| < deadzone`, the
binding matches, yet `mapInputToActions` materializes the action with
value 2 (the deadzone test is applied to the sensitivity-scaled value,
which already reached the deadzone). -/
theorem deadzone_claim_counterexample :
    |c4input.valueOrZero| < (normalizeBinding (.desc c4desc)).deadzone
    ∧ (c4bm.mapInputToActions c4input none).1.map (fun a => a.value) = [2]
    ∧ (c4bm.mapInputToActions c4input none).1.map (fun a => a.value) ≠ [0] := by
  refine ⟨by norm_num [c4input, c4desc, normalizeBinding, jsOrRat, InputData.valueOrZero], ?_, ?_⟩
  · decide
  · decide

/-- C4 (amended): for every input and matched binding configuration, if
the magnitude of the sensitivity-scaled value `input.value × sensitivity`
is below the binding's deadzone, the materialized action value is
exactly 0 (not merely small). -/
theorem createActionFromBinding_deadzone_zeroing (i : InputData) (a : ActionConfig)
    (h : |i.valueOrZero * a.sensitivity| < a.deadzone) :
    (createActionFromBinding i a).value = 0 := by
  unfold createActionFromBinding
  by_cases hs : a.sensitivity = 1
  · have h' : |i.valueOrZero| < a.deadzone := by
      simpa [hs] using h
    simp [hs, h']
  · simp [hs, h]

/-- Witness for the amended C4 theorem at a concrete input. -/
theorem createActionFromBinding_deadzone_zeroing_witness :
    |c4input.valueOrZero * (3 : ℚ)| < (4 : ℚ)
    ∧ (createActionFromBinding c4input
        { deviceType := "keyboard", inputType := "key", key := "z", modifiers := [],
          conditions := {}, sensitivity := 3, deadzone := 4, actionName := "zoom" }).value
      = 0 := by
  constructor
  · norm_num [c4input, InputData.valueOrZero]
  · exact createActionFromBinding_deadzone_zeroing c4input
      { deviceType := "keyboard", inputType := "key", key := "z", modifiers := [],
        conditions := {}, sensitivity := 3, deadzone := 4, actionName := "zoom" }
      (by norm_num [c4input, InputData.valueOrZero])

/-! ## C7: KeyBuffer capacity semantics -/

/-- C7 (divergence): with `bufferSize = -1` ("unlimited" per the
constructor's own documentation) nothing added through `addInput` is
retrievable: `count` never increments (`count < -1` is always false)
and `writeIndex` stays 0 (`x % -1 = 0`), so every add overwrites slot 0
and `getRecentInputs` returns the empty list. -/
theorem keyBuffer_unlimited_history_lost :
    ((KeyBuffer.init (-1)).addInput c7input 10).getRecentInputs none none = []
    ∧ ((KeyBuffer.init (-1)).addInput c7input 10).count = 0
    ∧ ((KeyBuffer.init (-1)).addInput c7input 10).writeIndex = some 0
    ∧ (((KeyBuffer.init (-1)).addInput c7input 10).addInput c7input 20).getRecentInputs
        none none = [] := by
  refine ⟨by decide, by decide, by decide, by decide⟩

/-! ## C8: KeyBuffer.clear -/

/-- C8 (divergence): the class defines `clear` twice and the later
definition shadows the earlier one, so an explicit `clear()` only
empties the pressed-key set: the stored history survives —
`getRecentInputs` still returns the buffered entry and `count` is
still 1, not 0. -/
theorem keyBuffer_clear_leaves_history :
    (((KeyBuffer.init 4).addInput c7input 5).clear).count = 1
    ∧ (((KeyBuffer.init 4).addInput c7input 5).clear).getRecentInputs none none
      = [{ data := c7input, bufferTimestamp := 5, bufferIndex := some 0 }] := by
  refine ⟨by decide, by decide⟩

/-! ## C2: binding cache coherence -/

theorem mapInput_state_preserved (bm : BindingMap) (i : InputData) :
    ((bm.mapInputToActions i none).2).bindings = bm.bindings
    ∧ ((bm.mapInputToActions i none).2).activeContext = bm.activeContext
    ∧ ((bm.mapInputToActions i none).2).cacheVersion = bm.cacheVersion
    ∧ jmGet ((bm.mapInputToActions i none).2).bindingCache
        (generateCacheKey bm i bm.activeContext)
      = some (bm.mapInputToActions i none).1 := by
  unfold BindingMap.mapInputToActions
  cases h1 : jmGet bm.bindingCache (generateCacheKey bm i bm.activeContext) with
  | some cached => simp [h1]
  | none =>
    cases h2 : jmGet bm.bindings bm.activeContext with
    | none => simp [h1, h2, jmGet_jmSet_self]
    | some contextMap => simp [h1, h2, jmGet_jmSet_self]

theorem mapInput_cache_hit (bm : BindingMap) (i : InputData) (r : List Action)
    (h : jmGet bm.bindingCache (generateCacheKey bm i bm.activeContext) = some r) :
    bm.mapInputToActions i none = (r, bm) := by
  unfold BindingMap.mapInputToActions
  simp [h]

theorem mapInput_emptyCache (bm : BindingMap) (i : InputData)
    (h : bm.bindingCache = []) :
    (bm.mapInputToActions i none).1 = bm.resolveUncached i bm.activeContext := by
  unfold BindingMap.mapInputToActions BindingMap.resolveUncached
  rw [h]
  cases h2 : jmGet bm.bindings bm.activeContext with
  | none => simp [h2, jmGet_nil]
  | some contextMap => simp [h2, jmGet_nil]

theorem addBinding_true_cache (bm : BindingMap) (c a : String) (b : Binding) :
    (bm.addBinding c a b true).bindingCache = [] := by
  simp [BindingMap.addBinding, BindingMap.clearCache]

theorem addBinding_false_cache (bm : BindingMap) (c a : String) (b : Binding) :
    (bm.addBinding c a b false).bindingCache = bm.bindingCache := by
  simp [BindingMap.addBinding]

theorem removeBinding_cache (bm : BindingMap) (c a : String) (b : Option Binding)
    (h : ∃ cm, jmGet bm.bindings c = some cm) :
    (bm.removeBinding c a b).bindingCache = [] := by
  obtain ⟨cm, hcm⟩ := h
  unfold BindingMap.removeBinding
  rw [hcm]
  simp [BindingMap.clearCache]

theorem foldl_cache_eq {α : Type} (f : BindingMap → α → BindingMap)
    (hf : ∀ b x, (f b x).bindingCache = b.bindingCache) (l : List α) :
    ∀ b : BindingMap, (l.foldl f b).bindingCache = b.bindingCache := by
  induction l with
  | nil => intro b; rfl
  | cons x xs ih => intro b; rw [List.foldl_cons, ih, hf]

theorem loadBindings_cache (bm : BindingMap) (config : BindingsConfig) :
    (bm.loadBindings config).bindingCache = [] := by
  unfold BindingMap.loadBindings
  rw [foldl_cache_eq]
  · rfl
  · intro b x
    rw [foldl_cache_eq]
    intro b' x'
    rw [foldl_cache_eq]
    intro b'' x''
    exact addBinding_false_cache b'' x.1 x'.1 x''

theorem setActiveContext_cache (bm : BindingMap) (c : String)
    (h : c ≠ bm.activeContext) :
    (bm.setActiveContext c).bindingCache = []
    ∧ (bm.setActiveContext c).activeContext = c := by
  have h' : bm.activeContext ≠ c := fun hh => h hh.symm
  simp [BindingMap.setActiveContext, h', BindingMap.clearCache]

/-- C2 (counterexample): the claim fails as stated.  `removeBinding` on
a context that has no map returns early WITHOUT clearing the cache, and
cache keys ignore the input's value, so the next `mapInputToActions`
call after such a removeBinding serves the list cached for a different
input value instead of the actions resolved against the current binding
table. -/
theorem cache_coherence_counterexample :
    (c2afterRemove.mapInputToActions c2i2 none).1
      = (c2bm.mapInputToActions c2i1 none).1
    ∧ (c2afterRemove.mapInputToActions c2i2 none).1
      ≠ c2afterRemove.resolveUncached c2i2 c2afterRemove.activeContext := by
  constructor
  · decide
  · decide

/-- C2 (amended): for a fixed binding set and fixed active context, two
consecutive `mapInputToActions` calls with identical input return the
same list — the second call is served the very entry the first call
stored in the cache — and leave the state unchanged; and after any
`addBinding`, any `removeBinding` whose context exists in the table,
any `loadBindings`, or any change of the active context to a different
context, the next `mapInputToActions` call returns exactly the actions
resolved against the current binding table. -/
theorem bindingMap_cache_coherence (bm : BindingMap) (i : InputData) :
    ((bm.mapInputToActions i none).2.mapInputToActions i none
        = ((bm.mapInputToActions i none).1, (bm.mapInputToActions i none).2)
      ∧ jmGet (bm.mapInputToActions i none).2.bindingCache
          (generateCacheKey (bm.mapInputToActions i none).2 i
            (bm.mapInputToActions i none).2.activeContext)
        = some (bm.mapInputToActions i none).1)
    ∧ (∀ c a b, ((bm.addBinding c a b true).mapInputToActions i none).1
        = (bm.addBinding c a b true).resolveUncached i
            (bm.addBinding c a b true).activeContext)
    ∧ (∀ c a b, (∃ cm, jmGet bm.bindings c = some cm) →
        ((bm.removeBinding c a b).mapInputToActions i none).1
          = (bm.removeBinding c a b).resolveUncached i
              (bm.removeBinding c a b).activeContext)
    ∧ (∀ cfg, ((bm.loadBindings cfg).mapInputToActions i none).1
        = (bm.loadBindings cfg).resolveUncached i
            (bm.loadBindings cfg).activeContext)
    ∧ (∀ c, c ≠ bm.activeContext →
        ((bm.setActiveContext c).mapInputToActions i none).1
          = (bm.setActiveContext c).resolveUncached i
              (bm.setActiveContext c).activeContext) := by
  obtain ⟨hb, hctx, hver, hget⟩ := mapInput_state_preserved bm i
  refine ⟨⟨?_, ?_⟩, ?_, ?_, ?_, ?_⟩
  · apply mapInput_cache_hit
    rw [hctx]
    rw [show generateCacheKey (bm.mapInputToActions i none).2 i bm.activeContext
        = generateCacheKey bm i bm.activeContext from by
      unfold generateCacheKey; rw [hver]]
    exact hget
  · rw [hctx]
    rw [show generateCacheKey (bm.mapInputToActions i none).2 i bm.activeContext
        = generateCacheKey bm i bm.activeContext from by
      unfold generateCacheKey; rw [hver]]
    exact hget
  · intro c a b
    exact mapInput_emptyCache _ i (addBinding_true_cache bm c a b)
  · intro c a b h
    exact mapInput_emptyCache _ i (removeBinding_cache bm c a b h)
  · intro cfg
    exact mapInput_emptyCache _ i (loadBindings_cache bm cfg)
  · intro c hne
    exact mapInput_emptyCache _ i (setActiveContext_cache bm c hne).1

/-- Witness for the amended C2 theorem at a concrete binding map and
input. -/
theorem bindingMap_cache_coherence_witness :
    (∃ cm, jmGet c2bm.bindings "default" = some cm)
    ∧ ("menu" : String) ≠ c2bm.activeContext
    ∧ ((c2bm.removeBinding "default" "aim" none).mapInputToActions c2i1 none).1
        = (c2bm.removeBinding "default" "aim" none).resolveUncached c2i1
            (c2bm.removeBinding "default" "aim" none).activeContext
    ∧ ((c2bm.setActiveContext "menu").mapInputToActions c2i1 none).1
        = (c2bm.setActiveContext "menu").resolveUncached c2i1
            (c2bm.setActiveContext "menu").activeContext := by
  refine ⟨⟨_, rfl⟩, by decide, ?_, ?_⟩
  · exact (bindingMap_cache_coherence c2bm c2i1).2.2.1 "default" "aim" none ⟨_, rfl⟩
  · exact (bindingMap_cache_coherence c2bm c2i1).2.2.2.2 "menu" (by decide)

/-! ## C3: single-tick just-pressed flags -/

theorem jmSet_cons_self {K V : Type} [DecidableEq K] (k : K) (s v : V)
    (rest : JsMap K V) : jmSet ((k, s) :: rest) k v = (k, v) :: rest := by
  simp [jmSet]

theorem jmSet_append_not_mem {K V : Type} [DecidableEq K] (done rest : JsMap K V)
    (k : K) (v : V) (h : k ∉ done.map Prod.fst) :
    jmSet (done ++ rest) k v = done ++ jmSet rest k v := by
  induction done with
  | nil => simp
  | cons p done' ih =>
    have hne : k ≠ p.1 := by
      intro hk
      exact h (by simp [hk])
    have h' : k ∉ done'.map Prod.fst := fun hm => h (by simp [hm])
    simp [jmSet, hne, ih h']

theorem mem_keys_jmSet {K V : Type} [DecidableEq K] (l : JsMap K V) (k x : K) (v : V)
    (h : x ∈ (jmSet l k v).map Prod.fst) : x ∈ l.map Prod.fst ∨ x = k := by
  induction l with
  | nil =>
    simp only [jmSet, List.map_cons, List.map_nil, List.mem_cons,
      List.not_mem_nil, or_false] at h
    exact Or.inr h
  | cons p rest ih =>
    rcases p with ⟨k', v'⟩
    by_cases hk : k = k'
    · subst hk
      rw [jmSet_cons_self] at h
      simp only [List.map_cons, List.mem_cons] at h
      rcases h with h1 | h2
      · exact Or.inr h1
      · exact Or.inl (by simp [h2])
    · simp only [jmSet, if_neg hk, List.map_cons, List.mem_cons] at h
      rcases h with h1 | h2
      · exact Or.inl (by simp [h1])
      · rcases ih h2 with h3 | h4
        · exact Or.inl (by simp [h3])
        · exact Or.inr h4

theorem jmSet_nodup {K V : Type} [DecidableEq K] (l : JsMap K V) (k : K) (v : V)
    (h : (l.map Prod.fst).Nodup) : ((jmSet l k v).map Prod.fst).Nodup := by
  induction l with
  | nil => simp [jmSet]
  | cons p rest ih =>
    rcases p with ⟨k', v'⟩
    by_cases hk : k = k'
    · subst hk
      rw [jmSet_cons_self]
      simpa using h
    · simp only [List.map_cons, List.nodup_cons] at h
      simp only [jmSet, if_neg hk, List.map_cons, List.nodup_cons]
      refine ⟨?_, ih h.2⟩
      intro hm
      rcases mem_keys_jmSet rest k k' v hm with h1 | h2
      · exact h.1 h1
      · exact hk h2.symm

theorem jmGet_map {K V : Type} [DecidableEq K] (f : V → V) (l : JsMap K V) (k : K) :
    jmGet (l.map (fun p => (p.1, f p.2))) k = (jmGet l k).map f := by
  induction l with
  | nil => simp [jmGet]
  | cons p rest ih =>
    by_cases hk : k = p.1
    · simp [jmGet, hk]
    · simp [jmGet, hk, ih]

theorem foldl_updateActionStep_states (l : List (String × ActionState)) :
    ∀ m : InputManager,
      (l.foldl updateActionStep m).actionStates
        = l.foldl (fun L p => jmSet L p.1 p.2.resetJust) m.actionStates := by
  induction l with
  | nil => intro m; rfl
  | cons p rest ih =>
    intro m
    rw [List.foldl_cons, List.foldl_cons, ih]
    rfl

theorem foldReset_aux (rest : List (String × ActionState)) :
    ∀ done : List (String × ActionState),
      (((done ++ rest).map Prod.fst).Nodup) →
      rest.foldl (fun L p => jmSet L p.1 p.2.resetJust) (done ++ rest)
        = done ++ rest.map (fun p => (p.1, p.2.resetJust)) := by
  induction rest with
  | nil => intro done _; simp
  | cons p rest' ih =>
    intro done h
    have hdisj := (List.nodup_append.mp (by simpa using h)).2.2
    have hk : p.1 ∉ done.map Prod.fst := by
      intro hmem
      exact hdisj hmem (by simp)
    rcases p with ⟨n, s⟩
    rw [List.foldl_cons]
    rw [show jmSet (done ++ (n, s) :: rest') n s.resetJust = done ++ (n, s.resetJust) :: rest' from by rw [jmSet_append_not_mem done ((n, s) :: rest') n s.resetJust hk, jmSet_cons_self]]
    rw [show done ++ (n, s.resetJust) :: rest' = (done ++ [(n, s.resetJust)]) ++ rest' from by simp]
    rw [ih (done ++ [(n, s.resetJust)]) (by simpa [ActionState.resetJust] using h)]
    simp

theorem updateActionStates_states (m : InputManager)
    (h : (m.actionStates.map Prod.fst).Nodup) :
    (m.updateActionStates).actionStates
      = m.actionStates.map (fun p => (p.1, p.2.resetJust)) := by
  unfold InputManager.updateActionStates
  rw [foldl_updateActionStep_states]
  have := foldReset_aux m.actionStates [] (by simpa using h)
  simpa using this

/-- The action state written by a `press` in `processActionInput`. -/
theorem processActionInput_press (m : InputManager) (a : Action)
    (htype : a.type = "press") :
    (m.processActionInput a).actionStates
      = jmSet m.actionStates a.name {
          isPressed := true
          justPressed := !((jmGet m.actionStates a.name).getD freshActionState).isPressed
          justReleased := false
          value := if a.value = 0 then 1 else a.value
          timestamp := jsTimestampOr a.timestamp m.frameData.timestamp } := by
  unfold InputManager.processActionInput
  simp [htype]

/-- C3 (counterexample): the claim fails as stated.  After a press is
processed and `updateActionStates()` has been called once, the FIRST
read of `justPressed` already returns false (`updateActionStates`
reset the flag at the end of its pass), even though the press itself
registered (`isPressed` is true); before `updateActionStates` the flag
reads true. -/
theorem just_pressed_first_read_counterexample :
    InputManager.isActionJustPressed
        (InputManager.updateActionStates (mkInputManager.processActionInput c3action))
        "jump" = false
    ∧ InputManager.isActionPressed
        (InputManager.updateActionStates (mkInputManager.processActionInput c3action))
        "jump" = true
    ∧ (mkInputManager.processActionInput c3action).isActionJustPressed "jump"
      = true := by
  refine ⟨by decide, by decide, by decide⟩

/-- C3 (amended): after a press input for a not-currently-pressed
action is processed via `processActionInput`, `justPressed` reads true
on every read until `updateActionStates()` is called once; that single
call resets the flag, so any read after it — and after any further
`updateActionStates()` call — returns false without a new input. -/
theorem actionState_just_flags_single_tick (m : InputManager) (a : Action)
    (htype : a.type = "press")
    (hnodup : (m.actionStates.map Prod.fst).Nodup)
    (hwas : ((jmGet m.actionStates a.name).getD freshActionState).isPressed = false) :
    (m.processActionInput a).isActionJustPressed a.name = true
    ∧ InputManager.isActionJustPressed
        (InputManager.updateActionStates (m.processActionInput a)) a.name = false
    ∧ InputManager.isActionJustPressed
        (InputManager.updateActionStates
          (InputManager.updateActionStates (m.processActionInput a))) a.name
      = false := by
  have hm1 : (m.processActionInput a).actionStates
      = jmSet m.actionStates a.name {
          isPressed := true
          justPressed := !((jmGet m.actionStates a.name).getD freshActionState).isPressed
          justReleased := false
          value := if a.value = 0 then 1 else a.value
          timestamp := jsTimestampOr a.timestamp m.frameData.timestamp } := by
    rw [processActionInput_press m a htype]
  have hnd1 : ((m.processActionInput a).actionStates.map Prod.fst).Nodup := by
    rw [hm1]
    exact jmSet_nodup m.actionStates a.name _ hnodup
  have hm2 := updateActionStates_states (m.processActionInput a) hnd1
  have hnd2 : (((m.processActionInput a).updateActionStates).actionStates.map
      Prod.fst).Nodup := by
    rw [hm2]
    simpa [Function.comp] using hnd1
  have hm3 := updateActionStates_states ((m.processActionInput a).updateActionStates) hnd2
  refine ⟨?_, ?_, ?_⟩
  · unfold InputManager.isActionJustPressed
    rw [hm1, jmGet_jmSet_self]
    simp [hwas]
  · unfold InputManager.isActionJustPressed
    rw [hm2, jmGet_map ActionState.resetJust, hm1, jmGet_jmSet_self]
    simp [ActionState.resetJust]
  · unfold InputManager.isActionJustPressed
    rw [hm3, jmGet_map ActionState.resetJust, hm2, jmGet_map ActionState.resetJust,
      hm1, jmGet_jmSet_self]
    simp [ActionState.resetJust]

/-- Witness for the amended C3 theorem at a concrete manager and
action. -/
theorem actionState_just_flags_single_tick_witness :
    c3action.type = "press"
    ∧ (mkInputManager.actionStates.map Prod.fst).Nodup
    ∧ ((jmGet mkInputManager.actionStates c3action.name).getD
        freshActionState).isPressed = false
    ∧ (mkInputManager.processActionInput c3action).isActionJustPressed
        c3action.name = true := by
  refine ⟨rfl, by decide, by decide, ?_⟩
  exact (actionState_just_flags_single_tick mkInputManager c3action rfl
    (by decide) (by decide)).1

/-! ## C6: rolling-buffer combo matcher -/

/-- C6: in the rolling-buffer tracker every processed input fires at
most one combo (first exact-suffix match over the registrations in
reverse insertion order, so the newest registration wins ties): for a
combo registered on `[K1, K2]`, feeding `[K1, K2]` emits exactly one
`input:combo` event with that sequence, feeding `[K1, K3, K1, K2]`
also emits exactly that one event, feeding `[K1]` alone emits nothing,
and with a second combo registered later on the same sequence the
emitted event carries the newer combo's name. -/
theorem rolling_combo_exact_suffix (K1 K2 K3 : String) (now : Nat)
    (h1 : K3 ≠ K2) (h2 : ¬ (K1 = K3 ∧ K2 = K1)) :
    (∀ (ct : Rolling.ComboTracker) (key : String) (t : Nat),
      ((ct.processInput key t).events).length ≤ ct.events.length + 1)
    ∧ (rollingFeed (rollingReg K1 K2) [K1, K2] now).events
      = [{ name := "c", sequence := [K1, K2], timestamp := now }]
    ∧ (rollingFeed (rollingReg K1 K2) [K1, K3, K1, K2] now).events
      = [{ name := "c", sequence := [K1, K2], timestamp := now }]
    ∧ (rollingFeed (rollingReg K1 K2) [K1] now).events = []
    ∧ (rollingFeed ((rollingReg K1 K2).registerCombo "c2" [.str K1, .str K2] false)
        [K1, K2] now).events
      = [{ name := "c2", sequence := [K1, K2], timestamp := now }] := by
  refine ⟨?_, ?_, ?_, ?_, ?_⟩
  · intro ct key t
    unfold Rolling.ComboTracker.processInput
    cases h : Rolling.fireFirst t
        (Rolling.trimBuffer ct.maxSequenceLength (ct.buffer ++ [key]))
        ct.combos.reverse with
    | some ev => simp [h]
    | none => simp [h]
  · simp [rollingFeed, rollingReg, Rolling.ComboTracker.registerCombo,
      Rolling.ComboTracker.init, Rolling.ComboTracker.processInput,
      Rolling.trimBuffer, Rolling.fireFirst, Rolling.RStep.toKey, jmSet]
  · simp [rollingFeed, rollingReg, Rolling.ComboTracker.registerCombo,
      Rolling.ComboTracker.init, Rolling.ComboTracker.processInput,
      Rolling.trimBuffer, Rolling.fireFirst, Rolling.RStep.toKey, jmSet,
      h1, Ne.symm h1, h2]
  · simp [rollingFeed, rollingReg, Rolling.ComboTracker.registerCombo,
      Rolling.ComboTracker.init, Rolling.ComboTracker.processInput,
      Rolling.trimBuffer, Rolling.fireFirst, Rolling.RStep.toKey, jmSet]
  · simp [rollingFeed, rollingReg, Rolling.ComboTracker.registerCombo,
      Rolling.ComboTracker.init, Rolling.ComboTracker.processInput,
      Rolling.trimBuffer, Rolling.fireFirst, Rolling.RStep.toKey, jmSet]

/-- Witness for the C6 theorem at concrete keys. -/
theorem rolling_combo_exact_suffix_witness :
    (("k3" : String) ≠ "k2" ∧ ¬ (("k1" : String) = "k3" ∧ ("k2" : String) = "k1"))
    ∧ (rollingFeed (rollingReg "k1" "k2") ["k1", "k3", "k1", "k2"] 9).events
      = [{ name := "c", sequence := ["k1", "k2"], timestamp := 9 }] := by
  refine ⟨⟨by decide, by decide⟩, ?_⟩
  exact (rolling_combo_exact_suffix "k1" "k2" "k3" 9 (by decide) (by decide)).2.2.1

/-! ## C9: loadConfig retry / safe default -/

/-- C9: `loadConfig()` with no config argument makes at most 3 attempts
against the persistence collaborator; when every attempt fails it emits
exactly one `input:error` event per failed attempt (three in total) and
then applies an empty binding set as the safe default; when the first
attempt succeeds with a config, the loaded bindings are applied and
`input:config_loaded` is emitted.  The call is a total function of the
state — it never throws to its caller. -/
theorem inputManager_loadConfig_retries (m : InputManager)
    (provider : Nat → Except JsErr (Option InputConfig)) :
    ((∀ k, ∃ e, provider k = Except.error e) →
      m.loadConfig none provider
        = { m with
            events := m.events
              ++ [.error "loadConfig", .error "loadConfig", .error "loadConfig"]
            bindingMap := m.bindingMap.map (fun bm => bm.loadBindings []) })
    ∧ (∀ cfg, provider 0 = Except.ok (some cfg) →
        m.loadConfig none provider
          = { m with
              bindingMap := m.bindingMap.map (fun bm => bm.loadBindings cfg.bindings)
              config := mergeSettings m.config cfg.settings
              events := m.events ++ [.configLoaded] }) := by
  constructor
  · intro hfail
    obtain ⟨e0, h0⟩ := hfail 0
    obtain ⟨e1, h1⟩ := hfail 1
    obtain ⟨e2, h2⟩ := hfail 2
    simp [InputManager.loadConfig, InputManager.loadConfigGo, h0, h1, h2,
      InputManager.handleError]
  · intro cfg h0
    simp [InputManager.loadConfig, InputManager.loadConfigGo, h0,
      InputManager.applyLoadedConfig]

/-- Witness for the C9 theorem: a concrete manager with an
always-failing provider, and one with an immediately-successful
provider. -/
theorem inputManager_loadConfig_retries_witness :
    (∀ k : Nat, ∃ e, (fun _ : Nat => (Except.error JsErr.ioError :
        Except JsErr (Option InputConfig))) k = Except.error e)
    ∧ c9manager.loadConfig none (fun _ => Except.error JsErr.ioError)
      = { c9manager with
          events := c9manager.events
            ++ [.error "loadConfig", .error "loadConfig", .error "loadConfig"]
          bindingMap := c9manager.bindingMap.map (fun bm => bm.loadBindings []) }
    ∧ (fun _ : Nat => (Except.ok (some c9config) :
        Except JsErr (Option InputConfig))) 0 = Except.ok (some c9config)
    ∧ c9manager.loadConfig none (fun _ => Except.ok (some c9config))
      = { c9manager with
          bindingMap := c9manager.bindingMap.map
            (fun bm => bm.loadBindings c9config.bindings)
          config := mergeSettings c9manager.config c9config.settings
          events := c9manager.events ++ [.configLoaded] } := by
  refine ⟨fun k => ⟨JsErr.ioError, rfl⟩, ?_, rfl, ?_⟩
  · exact (inputManager_loadConfig_retries c9manager
      (fun _ => Except.error JsErr.ioError)).1 (fun k => ⟨JsErr.ioError, rfl⟩)
  · exact (inputManager_loadConfig_retries c9manager
      (fun _ => Except.ok (some c9config))).2 c9config rfl

/-! ## C5: sequence-instance combo timeout window -/

/-- C5: for every two-step combo registered with a 1000 ms timeout,
feeding an input matching step one and then — 1100 ms later — an input
matching step two does NOT complete the combo (the instance expires
because now − lastInputTime > timeout), while feeding step one and
step two only 500 ms apart DOES complete it; the first input alone
never completes a two-step combo. -/
theorem comboTracker_timeout_window (d1 d2 : StepInput) (i1 i2 : InputData)
    (t0 : Nat) (ct0 : ComboTracker)
    (hreg : (ComboTracker.init 500).registerCombo "c"
        { steps := some [d1, d2], timeout := some 1000 } = Except.ok ct0)
    (hm1 : matchesComboStep i1 (normalizeComboStep d1) = true)
    (hm2 : matchesComboStep i2 (normalizeComboStep d2) = true) :
    (ct0.checkForCombo i1 t0).map Prod.fst = Except.ok none
    ∧ comboRunTwo ct0 i1 t0 i2 (t0 + 1100) = Except.ok none
    ∧ (comboRunTwo ct0 i1 t0 i2 (t0 + 500)).map (Option.map ComboResult.comboId)
      = Except.ok (some "c") := by
  have hct0 : ct0 = { ComboTracker.init 500 with combos := [("c", {
      id := "c"
      name := ""
      steps := [normalizeComboStep d1, normalizeComboStep d2]
      timeout := 1000
      allowMultiple := false })] } := by
    have := hreg
    simp [ComboTracker.registerCombo, ComboTracker.normalizeComboConfig, jsOrNat,
      jmSet, ComboTracker.init, pure, Except.pure, bind, Except.bind] at this
    exact this.symm
  subst hct0
  have hexp : ((t0 + 1100 : Nat) : Int) - (t0 : Int) > ((1000 : Nat) : Int) := by
    push_cast
    omega
  have hkeep : ¬ (((t0 + 500 : Nat) : Int) - (t0 : Int) > ((1000 : Nat) : Int)) := by
    push_cast
    omega
  by_cases hx : matchesComboStep i2 (normalizeComboStep d1) = true
  · refine ⟨?_, ?_, ?_⟩ <;>
      simp [comboRunTwo, ComboTracker.checkForCombo,
        ComboTracker.updateActiveSequences, updateSeqList, stepActiveSequence,
        ComboTracker.startNewSequences, startSeqList, startSeqStep,
        ComboTracker.checkCompletedCombos, ComboTracker.recordComboCompletion,
        ComboTracker.init, jsOrNat, jmSet, jmGet, jmDelete, jsSubNat,
        hm1, hm2, hx, hexp, hkeep, bind, Except.bind, pure, Except.pure,
        Except.map, Option.map, List.find?, List.get?]
  · refine ⟨?_, ?_, ?_⟩ <;>
      simp [comboRunTwo, ComboTracker.checkForCombo,
        ComboTracker.updateActiveSequences, updateSeqList, stepActiveSequence,
        ComboTracker.startNewSequences, startSeqList, startSeqStep,
        ComboTracker.checkCompletedCombos, ComboTracker.recordComboCompletion,
        ComboTracker.init, jsOrNat, jmSet, jmGet, jmDelete, jsSubNat,
        hm1, hm2, hx, hexp, hkeep, bind, Except.bind, pure, Except.pure,
        Except.map, Option.map, List.find?, List.get?]

/-- Witness for the C5 theorem with concrete steps, inputs and times. -/
theorem comboTracker_timeout_window_witness :
    (ComboTracker.init 500).registerCombo "c" c5cfg = Except.ok c5ct
    ∧ matchesComboStep c5i1 (normalizeComboStep c5step1) = true
    ∧ matchesComboStep c5i2 (normalizeComboStep c5step2) = true
    ∧ comboRunTwo c5ct c5i1 0 c5i2 1100 = Except.ok none
    ∧ (comboRunTwo c5ct c5i1 0 c5i2 500).map (Option.map ComboResult.comboId)
      = Except.ok (some "c") := by
  refine ⟨by decide, by decide, by decide, ?_, ?_⟩
  · exact ((comboTracker_timeout_window c5step1 c5step2 c5i1 c5i2 0 c5ct
      (by decide) (by decide) (by decide)).2.1)
  · exact ((comboTracker_timeout_window c5step1 c5step2 c5i1 c5i2 0 c5ct
      (by decide) (by decide) (by decide)).2.2)

/-! ## C1: processRawInput pipeline vs. the actual combo-matcher wiring -/

/-- C1 (divergence): the claim describes the intended pipeline, but as
wired the code cannot run it.  The InputManager's `./ComboTracker.js`
module reference resolves to the rolling tracker, which has no `checkForCombo`
method, so on an initialized, unpaused manager EVERY well-typed
`processRawInput` call adds the input to the history buffer and then
throws a TypeError at `this.comboTracker?.checkForCombo(inputData)`;
the catch reports one `input:error` event and returns.  The input is
never resolved through the binding table and no action state is
touched.  Invalid argument pairs are likewise reported through
`input:error` without throwing; in no case does the call propagate an
exception to its caller. -/
theorem inputManager_combo_check_raises (m : InputManager)
    (kb : KeyBuffer) (rct : Rolling.ComboTracker)
    (d : String) (i : InputData) (now : Nat)
    (hkb : m.keyBuffer = some kb) (hct : m.comboTracker = some rct)
    (hinit : m.isInitialized = true) (hp : m.isPaused = false) :
    (∀ dv iv : JsVal, ((∀ s, dv ≠ JsVal.str s) ∨ (∀ j, iv ≠ JsVal.obj j)) →
      m.processRawInput dv iv now
        = { m with events := m.events ++ [.error "processRawInput"] })
    ∧ m.processRawInput (.str d) (.obj i) now
      = { m with
          keyBuffer := some (kb.addInput i now)
          events := m.events ++ [.error "processRawInput"] }
    ∧ (m.processRawInput (.str d) (.obj i) now).actionStates = m.actionStates
    ∧ (m.processRawInput (.str d) (.obj i) now).bindingMap = m.bindingMap := by
  have heq : m.processRawInput (.str d) (.obj i) now
      = { m with
          keyBuffer := some (kb.addInput i now)
          events := m.events ++ [.error "processRawInput"] } := by
    simp [InputManager.processRawInput, InputManager.processRawInputBody,
      hkb, hct, hinit, hp, InputManager.handleError]
  refine ⟨?_, heq, ?_, ?_⟩
  · intro dv iv hbad
    cases dv with
    | str s =>
      cases iv with
      | obj j =>
        exfalso
        rcases hbad with h | h
        · exact h s rfl
        · exact h j rfl
      | str s2 => rfl
      | num n => rfl
      | undef => rfl
    | obj j => cases iv <;> rfl
    | num n => cases iv <;> rfl
    | undef => cases iv <;> rfl
  · rw [heq]
  · rw [heq]

/-- Witness for the C1 divergence theorem: a wrong-typed deviceType is
reported via `input:error` without throwing, and a well-typed press on
the initialized manager buffers the input and then reports the
TypeError from the missing `checkForCombo` — no action resolution. -/
theorem inputManager_combo_check_raises_witness :
    c1manager.processRawInput (.num 3) (.obj c2i1) 5
      = { c1manager with
          events := c1manager.events ++ [.error "processRawInput"] }
    ∧ c1manager.processRawInput (.str "keyboard") (.obj c2i1) 5
      = { c1manager with
          keyBuffer := some ((KeyBuffer.init 32).addInput c2i1 5)
          events := c1manager.events ++ [.error "processRawInput"] } := by
  have h := inputManager_combo_check_raises c1manager (KeyBuffer.init 32)
    (Rolling.ComboTracker.init none none) "keyboard" c2i1 5 rfl rfl rfl rfl
  exact ⟨h.1 (.num 3) (.obj c2i1) (Or.inl (fun s hh => JsVal.noConfusion hh)), h.2.1⟩

end InputCore
